import Mathlib

/-!
Shallow embedding of the consensus-and-adaptation core of the Nasa_mission
repository. Numeric code is embedded over `ℚ` (the Python source computes with
floats; the specification's formulas are stated in exact arithmetic), except
for Kepler's third law, which the spec compares under exact real arithmetic and
is therefore embedded over `ℝ`. Python exceptions are embedded as `Except`
values, with an explicit error for Python's division by zero (Lean's `/` is
total with `x / 0 = 0`, Python raises `ZeroDivisionError`).

Sources embedded:
  - `src/llm-training/complete_scientific_formulas.py`
    (`aggregate_prediction`, `feedback_based_knowledge_weight`,
     `explanation_aggregation`, `keplers_third_law`);
  - `src/web-app/llm-backend/enhanced_api_server.py` (`provide_feedback`).
-/

namespace NasaMission

/-- Python runtime errors raised by the embedded functions. -/
inductive PyError where
  | valueError (msg : String)
  | zeroDivisionError
  | indexError
deriving DecidableEq, Repr

/-- `np.mean` of a list: `sum / len`.  (For the empty list Lean's total
division returns `0`; every claim below assumes a non-empty list.) -/
def npMean (ps : List ℚ) : ℚ := ps.sum / (ps.length : ℚ)

/-- `np.var` of a list: the unweighted population variance
`(1/n) Σ (pᵢ - mean)²`, exactly as NumPy's default `ddof = 0`. -/
def npVar (ps : List ℚ) : ℚ :=
  ((ps.map fun p => (p - npMean ps) ^ 2).sum) / (ps.length : ℚ)

/-- `clamp(x, lo, hi)` as the specification writes it; equals the source's
`max(lo, min(hi, x))` pattern. -/
def clamp (x lo hi : ℚ) : ℚ := max lo (min hi x)

/-- The dictionary returned by `aggregate_prediction` (numeric and list
fields; the constant `'formula'` string is omitted). -/
structure AggregateResult where
  aggregated_prediction : ℚ
  individual_predictions : List ℚ
  weights : List ℚ
  prediction_variance : ℚ
  confidence : ℚ
  total_weight : ℚ
deriving DecidableEq, Repr

/-- Embedding of `CompleteScientificCalculator.aggregate_prediction`
(`complete_scientific_formulas.py`, lines 335-365):
raises `ValueError` on a length mismatch; otherwise returns the weighted
average `Σ(pᵢwᵢ)/Σwᵢ` when `Σwᵢ > 0` and `0.5` otherwise, the population
variance of the predictions, and `confidence = 1 - min(1, 2·variance)`. -/
def aggregate_prediction (predictions weights : List ℚ) :
    Except PyError AggregateResult :=
  if predictions.length ≠ weights.length then
    .error (.valueError "Number of predictions must match number of weights")
  else
    let weighted_sum := ((predictions.zip weights).map fun pw => pw.1 * pw.2).sum
    let total_weight := weights.sum
    let aggregated_prediction :=
      if 0 < total_weight then weighted_sum / total_weight else 0.5
    let prediction_variance := npVar predictions
    let confidence := 1 - min 1 (2 * prediction_variance)
    .ok { aggregated_prediction := aggregated_prediction
          individual_predictions := predictions
          weights := weights
          prediction_variance := prediction_variance
          confidence := confidence
          total_weight := total_weight }

/-- The dictionary returned by `feedback_based_knowledge_weight` (numeric and
boolean fields; the `binary_cross_entropy_loss` field is the transcendental
`-h·log P - (1-h)·log(1-P)`, is unused by the weight update, and no claim
concerns it, so it is omitted from the embedding). -/
structure FeedbackResult where
  original_weight : ℚ
  updated_weight : ℚ
  weight_change : ℚ
  prediction : ℚ
  human_feedback : Bool
  loss_gradient : ℚ
  learning_rate : ℚ
deriving DecidableEq, Repr

/-- Embedding of `CompleteScientificCalculator.feedback_based_knowledge_weight`
(`complete_scientific_formulas.py`, lines 254-297): `h = 1 or 0`,
`P = max(0.001, min(0.999, prediction))`, gradient `-h/P + (1-h)/(1-P)`,
`adjustment = learning_rate · gradient · (0.01 if correct else -0.01)`,
`new_weight = max(0.1, min(2.0, current_weight - adjustment))`. -/
def feedback_based_knowledge_weight (current_weight prediction : ℚ)
    (human_feedback : Bool) (learning_rate : ℚ) : FeedbackResult :=
  let h : ℚ := if human_feedback then 1.0 else 0.0
  let P := max 0.001 (min 0.999 prediction)
  let dL_dP := -h / P + (1 - h) / (1 - P)
  let weight_adjustment :=
    learning_rate * dL_dP * (if human_feedback then 0.01 else -0.01)
  let new_weight := max 0.1 (min 2.0 (current_weight - weight_adjustment))
  { original_weight := current_weight
    updated_weight := new_weight
    weight_change := new_weight - current_weight
    prediction := prediction
    human_feedback := human_feedback
    loss_gradient := dL_dP
    learning_rate := learning_rate }

/-- One entry of the `weighted_explanations` list built by
`explanation_aggregation`: helper id `helper_{i+1}`, the explanation string,
the normalized weight, and the percentage contribution `weight * 100`. -/
structure WeightedExplanation where
  helper_id : String
  explanation : String
  weight : ℚ
  contribution : ℚ
deriving DecidableEq, Repr, Inhabited

/-- The dictionary returned by `explanation_aggregation` (the constant
`'formula'` string is omitted). -/
structure ExplanationAggregationResult where
  aggregated_explanations : List WeightedExplanation
  total_helpers : Nat
  weight_distribution : List ℚ
  primary_explanation : String
deriving DecidableEq, Repr

/-- Embedding of `CompleteScientificCalculator.explanation_aggregation`
(`complete_scientific_formulas.py`, lines 299-333): raises `ValueError` on a
length mismatch; normalizes the weights by `w / Σw`, which in Python raises
`ZeroDivisionError` as soon as the list is non-empty and `Σw = 0`; builds the
weighted entries, sorts them by contribution descending (Python's stable
`list.sort(key=..., reverse=True)`), and takes `weighted_explanations[0]` as
the primary explanation, which raises `IndexError` on an empty list. -/
def explanation_aggregation (explanations : List String) (weights : List ℚ) :
    Except PyError ExplanationAggregationResult :=
  if explanations.length ≠ weights.length then
    .error (.valueError "Number of explanations must match number of weights")
  else
    let total_weight := weights.sum
    if weights ≠ [] ∧ total_weight = 0 then
      .error .zeroDivisionError
    else
      let normalized_weights := weights.map fun w => w / total_weight
      let weighted_explanations :=
        ((explanations.zip normalized_weights).enum).map fun ie =>
          { helper_id := "helper_" ++ toString (ie.1 + 1)
            explanation := ie.2.1
            weight := ie.2.2
            contribution := ie.2.2 * 100 : WeightedExplanation }
      let sorted := weighted_explanations.mergeSort
        fun a b => decide (b.contribution ≤ a.contribution)
      if sorted = [] then
        .error .indexError
      else
        .ok { aggregated_explanations := sorted
              total_helpers := explanations.length
              weight_distribution := normalized_weights
              primary_explanation := sorted.headI.explanation }

/-! ### The feedback endpoint of `enhanced_api_server.py`

`EnhancedExoplanetAPI` keeps `analysis_history` (a dict from analysis id to
the stored analysis, whose optional `'feedback'` key is set only by the
feedback endpoint) and a `FederatedAISystem` instance.  Timestamps are
embedded as integers (seconds); only differences of timestamps matter. -/

/-- The `'feedback'` dictionary stored on an analysis by `provide_feedback`. -/
structure FeedbackInfo where
  is_correct : Bool
  ground_truth : Option Bool
  user_notes : Option String
  timestamp : ℤ
deriving DecidableEq, Repr

/-- One value of `EnhancedExoplanetAPI.analysis_history`: the request data
(of which only `star_id` matters to the feedback endpoint), the storage
timestamp, and the optional feedback attachment (absent until the feedback
endpoint sets it). -/
structure StoredAnalysis where
  star_id : String
  timestamp : ℤ
  feedback : Option FeedbackInfo
deriving DecidableEq, Repr

/-- One entry of `FederatedAISystem.aggregation_history`: the analyzed
input's optional `star_id`, the analysis timestamp, and the per-helper
predictions recorded for that analysis. -/
structure AggregationEntry where
  star_id : Option String
  timestamp : ℤ
  results : List (String × ℚ)
deriving DecidableEq, Repr

/-- The state of the `FederatedAISystem` instance owned by the server:
per-helper reliability weights, the aggregation history, and the feedback
counter. -/
structure FederatedState where
  helpers : List (String × ℚ)
  aggregation_history : List AggregationEntry
  total_feedback : Nat
deriving DecidableEq, Repr

/-- Modelled from the spec: `FederatedAISystem.provide_human_feedback` is
imported by `enhanced_api_server.py` from `federated_ai_system`, a module of
this repository that is not under src/.  Per spec section 4.4, steps 2-3, it
updates the reliability weight of every helper that contributed a prediction
to the indexed analysis using the binary-cross-entropy rule (the source's
`feedback_based_knowledge_weight`, default learning rate `0.1`) and counts
the feedback event.  The duplicate-feedback state (`AnalysisRecord.feedback`)
lives in the server's `analysis_history`, written only by `provide_feedback`
below, so this call is total in the analysis index. -/
def provide_human_feedback (st : FederatedState) (analysis_index : Nat)
    (is_correct : Bool) (ground_truth : Option Bool) : FederatedState :=
  match st.aggregation_history.get? analysis_index with
  | none => st
  | some entry =>
      let helpers := st.helpers.map fun hw =>
        match entry.results.find? (fun r => r.1 == hw.1) with
        | none => hw
        | some r =>
            (hw.1,
             (feedback_based_knowledge_weight hw.2 r.2 is_correct 0.1).updated_weight)
      { st with
          helpers := helpers
          total_feedback := st.total_feedback + 1
          aggregation_history := st.aggregation_history }

/-- The body of a `POST /api/feedback` request (`FeedbackRequest` in
`enhanced_api_server.py`). -/
structure FeedbackRequest where
  analysis_id : String
  is_correct : Bool
  ground_truth : Option Bool
  user_notes : Option String
deriving DecidableEq, Repr

/-- The server state read and written by the feedback endpoint. -/
structure ServerState where
  federated : FederatedState
  analysis_history : List (String × StoredAnalysis)
deriving DecidableEq, Repr

/-- The failure modes of the feedback endpoint.  The first two are the
HTTP 404 responses raised in the source; `feedbackAlreadyApplied` is the
`FeedbackAlreadyAppliedError` the specification describes, included so that
the duplicate-submission claim is statable (no code in the repository raises
it). -/
inductive FeedbackError where
  | analysisNotFound
  | analysisNotFoundInFederated
  | feedbackAlreadyApplied
deriving DecidableEq, Repr

/-- Dictionary lookup `self.analysis_history[request.analysis_id]`. -/
def lookupAnalysis (hist : List (String × StoredAnalysis)) (id : String) :
    Option StoredAnalysis :=
  (hist.find? fun p => p.1 == id).map fun p => p.2

/-- The search loop of `provide_feedback`: the first index `i` into
`aggregation_history` whose entry has the stored analysis's `star_id` and a
timestamp within 60 seconds of the stored one. -/
def findMatchIdx (hist : List AggregationEntry) (stored : StoredAnalysis) :
    Option Nat :=
  hist.findIdx? fun a =>
    a.star_id == some stored.star_id &&
      decide ((a.timestamp - stored.timestamp).natAbs < 60)

/-- Embedding of the `provide_feedback` endpoint
(`enhanced_api_server.py`, lines 266-325): 404 if the analysis id is not
stored; 404 if no aggregation-history entry matches by `star_id` and
timestamp proximity; otherwise forward the feedback to the federated system
and unconditionally (over)write the stored analysis's `feedback` field.
`now` stands for `datetime.now()` at the call. -/
def provide_feedback (st : ServerState) (req : FeedbackRequest) (now : ℤ) :
    Except FeedbackError ServerState :=
  match lookupAnalysis st.analysis_history req.analysis_id with
  | none => .error .analysisNotFound
  | some stored =>
      match findMatchIdx st.federated.aggregation_history stored with
      | none => .error .analysisNotFoundInFederated
      | some i =>
          let fed :=
            provide_human_feedback st.federated i req.is_correct req.ground_truth
          let newStored : StoredAnalysis :=
            { stored with
                feedback := some { is_correct := req.is_correct
                                   ground_truth := req.ground_truth
                                   user_notes := req.user_notes
                                   timestamp := now } }
          .ok { federated := fed
                analysis_history := st.analysis_history.map fun p =>
                  if p.1 == req.analysis_id then (p.1, newStored) else p }

/-- A concrete server state used to exercise the feedback endpoint: one
helper, one analyzed candidate `KIC-1` recorded both in the federated
aggregation history and in the server's analysis history under id `a1`,
no feedback yet. -/
def serverState0 : ServerState :=
  { federated :=
      { helpers := [("transit_specialist", 1)]
        aggregation_history :=
          [{ star_id := some "KIC-1", timestamp := 0
             results := [("transit_specialist", 0.9)] }]
        total_feedback := 0 }
    analysis_history :=
      [("a1", { star_id := "KIC-1", timestamp := 0, feedback := none })] }

/-- A concrete feedback request for analysis `a1`. -/
def feedbackReq0 : FeedbackRequest :=
  { analysis_id := "a1", is_correct := true, ground_truth := some true
    user_notes := none }

/-- A stored analysis whose `feedback` field is already set. -/
def storedWithFeedback : StoredAnalysis :=
  { star_id := "KIC-1", timestamp := 0
    feedback := some { is_correct := true, ground_truth := some true
                       user_notes := none, timestamp := 0 } }

/-- A concrete server state in which analysis `a1` already carries feedback
(the state reached after one successful feedback submission). -/
def serverState2 : ServerState :=
  { federated := serverState0.federated
    analysis_history := [("a1", storedWithFeedback)] }

/-- `min(pᵢ)` of a prediction list, as the specification's testable property
writes it (`0` on the empty list, which no claim uses). -/
def listMin : List ℚ → ℚ
  | [] => 0
  | p :: t => t.foldl min p

/-- `max(pᵢ)` of a prediction list (`0` on the empty list). -/
def listMax : List ℚ → ℚ
  | [] => 0
  | p :: t => t.foldl max p

/-! ### Kepler's third law (`keplers_third_law`), embedded over `ℝ`

The claim compares the two branches of `keplers_third_law` under exact real
arithmetic, so this part of the embedding uses `ℝ`, `Real.sqrt` for
`np.sqrt`, `Real.pi` for `np.pi`, and the real cube root `x ^ (1/3 : ℝ)` for
Python's `** (1/3)`. -/

/-- `CONSTANTS['G']` (m³/kg/s²). -/
def constants_G : ℝ := 6.67430e-11

/-- `CONSTANTS['AU']` (m). -/
def constants_AU : ℝ := 1.495978707e11

/-- `CONSTANTS['M_sun']` (kg). -/
def constants_M_sun : ℝ := 1.989e30

/-- `CONSTANTS['M_earth']` (kg). -/
def constants_M_earth : ℝ := 5.972e24

/-- The `total_mass` computed at the top of `keplers_third_law`:
`M_s + M_p`, where `M_p = planet_mass * M_earth if planet_mass else 0`
(Python truthiness: the product is used exactly when `planet_mass ≠ 0`). -/
noncomputable def total_mass_kg (stellar_mass planet_mass : ℝ) : ℝ :=
  stellar_mass * constants_M_sun +
    (if planet_mass ≠ 0 then planet_mass * constants_M_earth else 0)

/-- The `orbital_distance` branch of `keplers_third_law`
(`complete_scientific_formulas.py`, lines 204-222): convert AU to meters,
`P_sec = sqrt(4π²a³ / (G·total_mass))`, return the period in days
(the dictionary's `'orbital_period_days'` entry). -/
noncomputable def kepler_distance_to_period
    (stellar_mass planet_mass orbital_distance : ℝ) : ℝ :=
  Real.sqrt ((4 * Real.pi ^ 2 * (orbital_distance * constants_AU) ^ 3) /
      (constants_G * total_mass_kg stellar_mass planet_mass)) / (24 * 3600)

/-- The `orbital_period` branch of `keplers_third_law`
(`complete_scientific_formulas.py`, lines 186-203): convert days to seconds,
`a_m = ((G·total_mass·P_sec²) / 4π²)^(1/3)`, return the distance in AU
(the dictionary's `'orbital_distance_au'` entry). -/
noncomputable def kepler_period_to_distance
    (stellar_mass planet_mass orbital_period : ℝ) : ℝ :=
  ((constants_G * total_mass_kg stellar_mass planet_mass *
      (orbital_period * 24 * 3600) ^ 2) / (4 * Real.pi ^ 2)) ^ ((1 : ℝ)/3) /
    constants_AU

/-! ## Theorems -/

/-- C2: for every current weight, recorded prediction, correctness flag and
learning rate, the updated weight returned by the feedback update equals
`clamp(w - η·g·(0.01 if is_correct else -0.01), 0.1, 2.0)`, where
`g = -h/P + (1-h)/(1-P)`, `h = 1.0 if is_correct else 0.0`, and
`P = clamp(p, 0.001, 0.999)`. -/
theorem feedback_weight_update_formula (w p lr : ℚ) (c : Bool) :
    (feedback_based_knowledge_weight w p c lr).updated_weight =
      clamp (w - lr * (-(if c then (1.0 : ℚ) else 0.0) / clamp p 0.001 0.999 +
          (1 - (if c then (1.0 : ℚ) else 0.0)) / (1 - clamp p 0.001 0.999)) *
        (if c then 0.01 else -0.01)) 0.1 2.0 :=
  rfl

/-- C4: for every input weight (even outside `[0.1, 2.0]`), prediction,
correctness flag and learning rate, the updated reliability weight lies
within `[0.1, 2.0]`, so every feedback update preserves the weight
invariant. -/
theorem feedback_weight_in_range (w p lr : ℚ) (c : Bool) :
    0.1 ≤ (feedback_based_knowledge_weight w p c lr).updated_weight ∧
      (feedback_based_knowledge_weight w p c lr).updated_weight ≤ 2.0 := by
  simp only [feedback_based_knowledge_weight]
  exact ⟨le_max_left _ _, max_le (by norm_num) (min_le_left _ _)⟩

/-- With `is_correct = true` and recorded prediction `0.9`, the clipped
prediction is `0.9` and the loss gradient is `-1/0.9 = -10/9`. -/
theorem feedback_true_09_gradient (w lr : ℚ) :
    (feedback_based_knowledge_weight w 0.9 true lr).loss_gradient = -(10/9) := by
  simp only [feedback_based_knowledge_weight]
  norm_num

/-- With `is_correct = true` and recorded prediction `0.9`, the adjustment is
`lr · (-10/9) · 0.01`, so the candidate new weight is `w + lr/90`. -/
theorem feedback_true_09_updated (w lr : ℚ) :
    (feedback_based_knowledge_weight w 0.9 true lr).updated_weight =
      max 0.1 (min 2.0 (w + lr * (1/90))) := by
  simp only [feedback_based_knowledge_weight]
  norm_num
  ring_nf

/-- C8: for a `correct = true` feedback on a recorded prediction of `0.9`
and any positive learning rate, the loss gradient is negative, so the
adjustment is negative and the updated weight is ≥ the current weight
`w ∈ [0.1, 2.0]`, strictly greater whenever `w < 2.0`. -/
theorem feedback_correct_highp_weight_monotone (w lr : ℚ) (hlr : 0 < lr)
    (hw1 : 0.1 ≤ w) (hw2 : w ≤ 2.0) :
    (feedback_based_knowledge_weight w 0.9 true lr).loss_gradient < 0 ∧
      w ≤ (feedback_based_knowledge_weight w 0.9 true lr).updated_weight ∧
      (w < 2.0 → w < (feedback_based_knowledge_weight w 0.9 true lr).updated_weight) := by
  rw [feedback_true_09_gradient, feedback_true_09_updated]
  refine ⟨by norm_num, ?_, ?_⟩
  · exact le_trans (le_min hw2 (by linarith)) (le_max_right _ _)
  · intro h
    exact lt_of_lt_of_le (lt_min h (by linarith)) (le_max_right _ _)

/-- C8 witness: at `w = 1`, `lr = 0.1`, the hypotheses hold and the updated
weight strictly exceeds `1` while the gradient is negative. -/
theorem feedback_correct_highp_weight_monotone_witness :
    (feedback_based_knowledge_weight 1 0.9 true 0.1).loss_gradient < 0 ∧
      (1 : ℚ) < (feedback_based_knowledge_weight 1 0.9 true 0.1).updated_weight := by
  have h := feedback_correct_highp_weight_monotone 1 0.1 (by norm_num)
    (by norm_num) (by norm_num)
  exact ⟨h.1, h.2.2 (by norm_num)⟩

/-- The population variance is a sum of squares over a nonnegative count,
hence nonnegative. -/
theorem npVar_nonneg (ps : List ℚ) : 0 ≤ npVar ps := by
  unfold npVar
  apply div_nonneg
  · apply List.sum_nonneg
    intro x hx
    obtain ⟨p, _, rfl⟩ := List.mem_map.mp hx
    positivity
  · positivity

/-- C1 (amended): for every non-empty prediction list and weight list of the
same length, the aggregated prediction equals the weighted mean
`Σ(pᵢwᵢ)/Σwᵢ` whenever `Σwᵢ > 0`, and equals the neutral fallback `0.5`
whenever `Σwᵢ ≤ 0` (in particular when `Σwᵢ = 0`). -/
theorem aggregate_prediction_weighted_mean (ps ws : List ℚ)
    (hlen : ps.length = ws.length) (hne : ps ≠ []) :
    ∃ r, aggregate_prediction ps ws = .ok r ∧
      (0 < ws.sum → r.aggregated_prediction =
        ((ps.zip ws).map fun pw => pw.1 * pw.2).sum / ws.sum) ∧
      (ws.sum ≤ 0 → r.aggregated_prediction = 0.5) := by
  simp only [aggregate_prediction, if_neg (not_ne_iff.mpr hlen)]
  exact ⟨_, rfl, fun h => by simp [if_pos h], fun h => by simp [if_neg (not_lt.mpr h)]⟩

/-- C1 counterexample: with predictions `[1]` and weights `[-1]` the weight
sum is `-1 ≠ 0`, the weighted mean is `1`, but the code returns `0.5`
(the source guards with `total_weight > 0`, not `total_weight ≠ 0`). -/
theorem aggregate_prediction_nonzero_sum_cex :
    [(-1 : ℚ)].sum ≠ 0 ∧
      ((aggregate_prediction [1] [-1]).toOption.map fun r => r.aggregated_prediction)
        = some 0.5 ∧
      (([(1 : ℚ)].zip [(-1 : ℚ)]).map fun pw => pw.1 * pw.2).sum / [(-1 : ℚ)].sum = 1 ∧
      (0.5 : ℚ) ≠ 1 := by
  refine ⟨by norm_num, ?_, by norm_num, by norm_num⟩
  simp [aggregate_prediction, Except.toOption]

/-- C1 witness: predictions `[1/2]`, weights `[1]`: the weight sum is
positive and the aggregation returns the weighted mean `1/2`. -/
theorem aggregate_prediction_weighted_mean_witness :
    ((aggregate_prediction [1/2] [1]).toOption.map fun r => r.aggregated_prediction)
      = some (1/2) := by
  obtain ⟨r, hr, hpos, _⟩ :=
    aggregate_prediction_weighted_mean [1/2] [1] (by decide) (by decide)
  rw [hr]
  simp only [Except.toOption, Option.map_some']
  rw [hpos (by norm_num)]
  norm_num

/-- C3: for every non-empty prediction list (and matching weights), the
confidence returned by the aggregation equals
`clamp(1 - 2·variance(pᵢ), 0, 1)` for the unweighted population variance. -/
theorem aggregate_prediction_confidence_clamp (ps ws : List ℚ)
    (hlen : ps.length = ws.length) (hne : ps ≠ []) :
    ∃ r, aggregate_prediction ps ws = .ok r ∧
      r.confidence = clamp (1 - 2 * npVar ps) 0 1 := by
  simp only [aggregate_prediction, if_neg (not_ne_iff.mpr hlen)]
  refine ⟨_, rfl, ?_⟩
  show 1 - min 1 (2 * npVar ps) = clamp (1 - 2 * npVar ps) 0 1
  have hv : 0 ≤ npVar ps := npVar_nonneg ps
  unfold clamp
  rcases le_total (2 * npVar ps) 1 with h | h
  · rw [min_eq_right h, min_eq_right (by linarith), max_eq_right (by linarith)]
  · rw [min_eq_left h, min_eq_right (by linarith), max_eq_left (by linarith)]
    norm_num

/-- C3 witness: predictions `[1, 0]` with weights `[1, 1]`: the variance is
`1/4` and the confidence equals `clamp(1 - 1/2, 0, 1) = 1/2`. -/
theorem aggregate_prediction_confidence_clamp_witness :
    ((aggregate_prediction [1, 0] [1, 1]).toOption.map fun r => r.confidence)
      = some (clamp (1 - 2 * npVar [1, 0]) 0 1) := by
  obtain ⟨r, hr, hc⟩ :=
    aggregate_prediction_confidence_clamp [1, 0] [1, 1] rfl (by decide)
  rw [hr]
  simp only [Except.toOption, Option.map_some']
  rw [hc]

/-- C9: for a fixed non-empty prediction list, the confidence is identical
across any two weight vectors of matching length: the weights do not
interfere with the confidence output. -/
theorem aggregate_prediction_confidence_weight_independent
    (ps ws1 ws2 : List ℚ) (hne : ps ≠ [])
    (h1 : ps.length = ws1.length) (h2 : ps.length = ws2.length) :
    ∃ r1 r2, aggregate_prediction ps ws1 = .ok r1 ∧
      aggregate_prediction ps ws2 = .ok r2 ∧ r1.confidence = r2.confidence := by
  simp only [aggregate_prediction, if_neg (not_ne_iff.mpr h1),
    if_neg (not_ne_iff.mpr h2)]
  exact ⟨_, _, rfl, rfl, rfl⟩

/-- C9 witness: same predictions under weights `[1, 1]` and `[3, 0]` give
the same confidence. -/
theorem aggregate_prediction_confidence_weight_independent_witness :
    ((aggregate_prediction [1/2, 1] [1, 1]).toOption.map fun r => r.confidence)
      = ((aggregate_prediction [1/2, 1] [3, 0]).toOption.map fun r => r.confidence) := by
  obtain ⟨r1, r2, h1, h2, hc⟩ :=
    aggregate_prediction_confidence_weight_independent
      [1/2, 1] [1, 1] [3, 0] (by decide) rfl rfl
  rw [h1, h2]
  simp only [Except.toOption, Option.map_some']
  rw [hc]

/-- Folding `min` over a list never exceeds the initial accumulator. -/
theorem foldl_min_le_init (t : List ℚ) (a : ℚ) : t.foldl min a ≤ a := by
  induction t generalizing a with
  | nil => simp
  | cons q tq ih => exact le_trans (ih (min a q)) (min_le_left a q)

/-- Folding `min` over a list never exceeds any list element. -/
theorem foldl_min_le_mem (t : List ℚ) (a x : ℚ) (hx : x ∈ t) :
    t.foldl min a ≤ x := by
  induction t generalizing a with
  | nil => simp at hx
  | cons q tq ih =>
      rcases List.mem_cons.mp hx with rfl | hx'
      · exact le_trans (foldl_min_le_init tq (min a x)) (min_le_right a x)
      · exact ih (min a q) hx'

/-- `listMin` is a lower bound of the list. -/
theorem listMin_le_mem (ps : List ℚ) (x : ℚ) (hx : x ∈ ps) : listMin ps ≤ x := by
  cases ps with
  | nil => simp at hx
  | cons p t =>
      rcases List.mem_cons.mp hx with rfl | hx'
      · exact foldl_min_le_init t x
      · exact foldl_min_le_mem t p x hx'

/-- Folding `max` over a list is at least the initial accumulator. -/
theorem le_foldl_max_init (t : List ℚ) (a : ℚ) : a ≤ t.foldl max a := by
  induction t generalizing a with
  | nil => simp
  | cons q tq ih => exact le_trans (le_max_left a q) (ih (max a q))

/-- Folding `max` over a list dominates every list element. -/
theorem le_foldl_max_mem (t : List ℚ) (a x : ℚ) (hx : x ∈ t) :
    x ≤ t.foldl max a := by
  induction t generalizing a with
  | nil => simp at hx
  | cons q tq ih =>
      rcases List.mem_cons.mp hx with rfl | hx'
      · exact le_trans (le_max_right a x) (le_foldl_max_init tq (max a x))
      · exact ih (max a q) hx'

/-- `listMax` is an upper bound of the list. -/
theorem le_listMax_mem (ps : List ℚ) (x : ℚ) (hx : x ∈ ps) : x ≤ listMax ps := by
  cases ps with
  | nil => simp at hx
  | cons p t =>
      rcases List.mem_cons.mp hx with rfl | hx'
      · exact le_foldl_max_init t x
      · exact le_foldl_max_mem t p x hx'

/-- With nonnegative weights, the weighted sum of predictions is at most any
upper bound of the predictions times the weight sum. -/
theorem zip_mul_sum_le : ∀ ps ws : List ℚ, ps.length = ws.length →
    (∀ w ∈ ws, 0 ≤ w) → ∀ hi : ℚ, (∀ p ∈ ps, p ≤ hi) →
    ((ps.zip ws).map fun pw => pw.1 * pw.2).sum ≤ hi * ws.sum := by
  intro ps
  induction ps with
  | nil =>
      intro ws hlen _ hi _
      cases ws with
      | nil => simp
      | cons w t => simp at hlen
  | cons p pt ih =>
      intro ws hlen hnn hi hhi
      cases ws with
      | nil => simp at hlen
      | cons w wt =>
          simp only [List.zip_cons_cons, List.map_cons, List.sum_cons]
          rw [mul_add]
          have h1 : p * w ≤ hi * w :=
            mul_le_mul_of_nonneg_right (hhi p (List.mem_cons_self p pt))
              (hnn w (List.mem_cons_self w wt))
          have h2 := ih wt (by simpa using hlen)
            (fun x hx => hnn x (List.mem_cons_of_mem w hx)) hi
            (fun x hx => hhi x (List.mem_cons_of_mem p hx))
          exact add_le_add h1 h2

/-- With nonnegative weights, the weighted sum of predictions is at least any
lower bound of the predictions times the weight sum. -/
theorem le_zip_mul_sum : ∀ ps ws : List ℚ, ps.length = ws.length →
    (∀ w ∈ ws, 0 ≤ w) → ∀ lo : ℚ, (∀ p ∈ ps, lo ≤ p) →
    lo * ws.sum ≤ ((ps.zip ws).map fun pw => pw.1 * pw.2).sum := by
  intro ps
  induction ps with
  | nil =>
      intro ws hlen _ lo _
      cases ws with
      | nil => simp
      | cons w t => simp at hlen
  | cons p pt ih =>
      intro ws hlen hnn lo hlo
      cases ws with
      | nil => simp at hlen
      | cons w wt =>
          simp only [List.zip_cons_cons, List.map_cons, List.sum_cons]
          rw [mul_add]
          have h1 : lo * w ≤ p * w :=
            mul_le_mul_of_nonneg_right (hlo p (List.mem_cons_self p pt))
              (hnn w (List.mem_cons_self w wt))
          have h2 := ih wt (by simpa using hlen)
            (fun x hx => hnn x (List.mem_cons_of_mem w hx)) lo
            (fun x hx => hlo x (List.mem_cons_of_mem p hx))
          exact add_le_add h1 h2

/-- A list of nonnegative rationals containing a positive element has a
positive sum. -/
theorem sum_pos_of_mem_pos : ∀ ws : List ℚ, (∀ w ∈ ws, 0 ≤ w) →
    (∃ w ∈ ws, 0 < w) → 0 < ws.sum := by
  intro ws
  induction ws with
  | nil =>
      intro _ hex
      obtain ⟨w, hw, _⟩ := hex
      simp at hw
  | cons a t ih =>
      intro hnn hex
      obtain ⟨w, hw, hwpos⟩ := hex
      simp only [List.sum_cons]
      have ht0 : 0 ≤ t.sum :=
        List.sum_nonneg fun x hx => hnn x (List.mem_cons_of_mem a hx)
      rcases List.mem_cons.mp hw with rfl | hw'
      · linarith
      · have ht : 0 < t.sum :=
          ih (fun x hx => hnn x (List.mem_cons_of_mem a hx)) ⟨w, hw', hwpos⟩
        have ha : 0 ≤ a := hnn a (List.mem_cons_self a t)
        linarith

/-- C6 (amended): for every weight vector whose entries are all nonnegative
with at least one positive, and every non-empty prediction list of matching
length, the aggregated prediction lies within `[min(pᵢ), max(pᵢ)]`. -/
theorem aggregate_prediction_within_bounds (ps ws : List ℚ)
    (hlen : ps.length = ws.length) (hne : ps ≠ [])
    (hnn : ∀ w ∈ ws, 0 ≤ w) (hex : ∃ w ∈ ws, 0 < w) :
    ∃ r, aggregate_prediction ps ws = .ok r ∧
      listMin ps ≤ r.aggregated_prediction ∧
      r.aggregated_prediction ≤ listMax ps := by
  have hW : 0 < ws.sum := sum_pos_of_mem_pos ws hnn hex
  simp only [aggregate_prediction, if_neg (not_ne_iff.mpr hlen)]
  refine ⟨_, rfl, ?_, ?_⟩
  · show listMin ps ≤
      (if 0 < ws.sum then
        ((ps.zip ws).map fun pw => pw.1 * pw.2).sum / ws.sum else 0.5)
    rw [if_pos hW, le_div_iff₀ hW]
    exact le_zip_mul_sum ps ws hlen hnn _ fun p hp => listMin_le_mem ps p hp
  · show (if 0 < ws.sum then
        ((ps.zip ws).map fun pw => pw.1 * pw.2).sum / ws.sum else 0.5) ≤
      listMax ps
    rw [if_pos hW, div_le_iff₀ hW]
    exact zip_mul_sum_le ps ws hlen hnn _ fun p hp => le_listMax_mem ps p hp

/-- C6 counterexample: weights `[2, -1]` contain the positive weight `2`,
predictions are `[0, 1]`, yet the aggregated prediction is
`(0·2 + 1·(-1))/1 = -1`, below `min(pᵢ) = 0`: with a negative weight in the
vector the claimed bound fails. -/
theorem aggregate_prediction_range_cex :
    (2 : ℚ) ∈ [(2 : ℚ), -1] ∧ (0 : ℚ) < 2 ∧
      ((aggregate_prediction [0, 1] [2, -1]).toOption.map fun r =>
        r.aggregated_prediction) = some (-1) ∧
      listMin [(0 : ℚ), 1] = 0 ∧ ¬ ((0 : ℚ) ≤ -1) := by
  refine ⟨by simp, by norm_num, ?_, ?_, by norm_num⟩
  · simp [aggregate_prediction, Except.toOption]
    norm_num
  · norm_num [listMin]

/-- C6 witness: predictions `[1/4, 3/4]` with weights `[1, 1]` aggregate to
`1/2`, which lies within the prediction bounds. -/
theorem aggregate_prediction_within_bounds_witness :
    ((aggregate_prediction [(1 : ℚ)/4, 3/4] [1, 1]).toOption.map fun r =>
      r.aggregated_prediction) = some (1/2) ∧
    listMin [(1 : ℚ)/4, 3/4] ≤ 1/2 ∧ (1/2 : ℚ) ≤ listMax [(1 : ℚ)/4, 3/4] := by
  obtain ⟨r, hr, h1, h2⟩ := aggregate_prediction_within_bounds
    [(1 : ℚ)/4, 3/4] [1, 1] rfl (by simp) (by norm_num) ⟨1, by simp, by norm_num⟩
  have hv : ((aggregate_prediction [(1 : ℚ)/4, 3/4] [1, 1]).toOption.map fun r =>
      r.aggregated_prediction) = some (1/2) := by
    simp [aggregate_prediction, Except.toOption]
    norm_num
  have hval : r.aggregated_prediction = 1/2 := by
    rw [hr] at hv
    simpa [Except.toOption] using hv
  exact ⟨hv, hval ▸ h1, hval ▸ h2⟩

/-- C7 counterexample: with the non-empty helper set `["a"]` and the
degenerate weight vector `[0]` (weight sum zero), `explanation_aggregation`
raises `ZeroDivisionError` instead of returning a result. -/
theorem explanation_aggregation_zero_sum_cex :
    (["a"] : List String) ≠ [] ∧ [(0 : ℚ)].sum = 0 ∧
      explanation_aggregation ["a"] [0] = .error .zeroDivisionError := by
  refine ⟨by simp, by simp, ?_⟩
  simp [explanation_aggregation]

/-- C7 (amended): for every non-empty helper set and weight vector of
matching length with nonzero sum, the explanation aggregation and the
prediction aggregation both return a result; with a zero-sum weight vector
the explanation-aggregation step fails with a division by zero (while
`aggregate_prediction` alone still degrades to `0.5`). -/
theorem aggregation_returns_result (es : List String) (ps ws : List ℚ)
    (hlen1 : es.length = ws.length) (hlen2 : ps.length = ws.length)
    (hne : es ≠ []) (hsum : ws.sum ≠ 0) :
    (∃ r, explanation_aggregation es ws = .ok r) ∧
      ∃ a, aggregate_prediction ps ws = .ok a := by
  constructor
  · have hc2 : ¬ (ws ≠ [] ∧ ws.sum = 0) := fun h => hsum h.2
    simp only [explanation_aggregation, if_neg (not_ne_iff.mpr hlen1), if_neg hc2]
    split
    next hemp =>
      exfalso
      have hl := congrArg List.length hemp
      rw [List.length_mergeSort, List.length_map, List.enum_length,
        List.length_zip, List.length_map, ← hlen1, min_self,
        List.length_nil] at hl
      exact hne (List.length_eq_zero.mp hl)
    next => exact ⟨_, rfl⟩
  · simp only [aggregate_prediction, if_neg (not_ne_iff.mpr hlen2)]
    exact ⟨_, rfl⟩

/-- C7 witness: helpers `["a", "b"]` with weights `[3, 1]` (sum `4 ≠ 0`) and
predictions `[1/2, 1/4]`: both aggregation steps return a result. -/
theorem aggregation_returns_result_witness :
    (explanation_aggregation ["a", "b"] [3, 1]).toOption.isSome = true ∧
      (aggregate_prediction [1/2, 1/4] [3, 1]).toOption.isSome = true := by
  obtain ⟨⟨r, hr⟩, ⟨a, ha⟩⟩ := aggregation_returns_result ["a", "b"]
    [1/2, 1/4] [3, 1] rfl rfl (by simp) (by norm_num)
  rw [hr, ha]
  exact ⟨rfl, rfl⟩

/-- C5 counterexample: starting from a state with one recorded analysis
`a1` and no feedback, the first `provide_feedback` call succeeds and sets
the stored `feedback` field; the second call on the very same `analysis_id`
succeeds again instead of failing with `FeedbackAlreadyAppliedError`. -/
theorem provide_feedback_duplicate_cex :
    (provide_feedback serverState0 feedbackReq0 0).isOk = true ∧
      ((provide_feedback serverState0 feedbackReq0 0).toOption.map fun st1 =>
        (lookupAnalysis st1.analysis_history "a1").map fun s => s.feedback.isSome)
        = some (some true) ∧
      ((provide_feedback serverState0 feedbackReq0 0).toOption.map fun st1 =>
        (provide_feedback st1 feedbackReq0 1).isOk) = some true := by
  exact ⟨rfl, rfl, rfl⟩

/-- C5 (amended): `provide_feedback` never inspects the stored `feedback`
field: whenever the analysis id is present and an aggregation-history match
exists, the call succeeds — even if feedback is already set, in which case
the stored feedback is silently overwritten.  No code path produces
`FeedbackAlreadyAppliedError`. -/
theorem provide_feedback_second_call_succeeds (st : ServerState)
    (req : FeedbackRequest) (now : ℤ) (stored : StoredAnalysis)
    (fb : FeedbackInfo) (i : Nat)
    (hlook : lookupAnalysis st.analysis_history req.analysis_id = some stored)
    (hfb : stored.feedback = some fb)
    (hmatch : findMatchIdx st.federated.aggregation_history stored = some i) :
    ∃ st2, provide_feedback st req now = .ok st2 := by
  simp only [provide_feedback, hlook, hmatch]
  exact ⟨_, rfl⟩

/-- C5 witness: on the concrete state whose analysis `a1` already carries
feedback, a further submission still succeeds. -/
theorem provide_feedback_second_call_succeeds_witness :
    (provide_feedback serverState2 feedbackReq0 5).isOk = true := by
  obtain ⟨st2, h⟩ := provide_feedback_second_call_succeeds serverState2
    feedbackReq0 5 storedWithFeedback
    { is_correct := true, ground_truth := some true
      user_notes := none, timestamp := 0 }
    0 rfl rfl rfl
  rw [h]
  rfl

/-- C10: Kepler round trip — for every positive stellar mass, planet mass
and orbital distance `a` (AU), computing the orbital period from `a` with
the `orbital_distance` branch of `keplers_third_law` and feeding it back
into the `orbital_period` branch with the same masses returns `a`, under
exact real arithmetic. -/
theorem kepler_round_trip (ms mp a : ℝ) (hms : 0 < ms) (hmp : 0 < mp)
    (ha : 0 < a) :
    kepler_period_to_distance ms mp (kepler_distance_to_period ms mp a) = a := by
  have hG : (0 : ℝ) < constants_G := by norm_num [constants_G]
  have hAU : (0 : ℝ) < constants_AU := by norm_num [constants_AU]
  have hMsun : (0 : ℝ) < constants_M_sun := by norm_num [constants_M_sun]
  have hMe : (0 : ℝ) < constants_M_earth := by norm_num [constants_M_earth]
  have hM : 0 < total_mass_kg ms mp := by
    unfold total_mass_kg
    rw [if_pos hmp.ne']
    have h1 : 0 < ms * constants_M_sun := mul_pos hms hMsun
    have h2 : 0 < mp * constants_M_earth := mul_pos hmp hMe
    linarith
  have hpi : (0 : ℝ) < Real.pi := Real.pi_pos
  have hGM : 0 < constants_G * total_mass_kg ms mp := mul_pos hG hM
  have hGMne : constants_G * total_mass_kg ms mp ≠ 0 := hGM.ne'
  have hpine : Real.pi ≠ 0 := Real.pi_ne_zero
  have ham : 0 < a * constants_AU := mul_pos ha hAU
  have hnum : 0 < 4 * Real.pi ^ 2 * (a * constants_AU) ^ 3 :=
    mul_pos (mul_pos (by norm_num) (pow_pos hpi 2)) (pow_pos ham 3)
  have hX : 0 ≤ 4 * Real.pi ^ 2 * (a * constants_AU) ^ 3 /
      (constants_G * total_mass_kg ms mp) := le_of_lt (div_pos hnum hGM)
  unfold kepler_period_to_distance kepler_distance_to_period
  have e1 : ∀ s : ℝ, s / (24 * 3600) * 24 * 3600 = s := fun s => by ring
  rw [e1, Real.sq_sqrt hX]
  have e2 : constants_G * total_mass_kg ms mp *
      (4 * Real.pi ^ 2 * (a * constants_AU) ^ 3 /
        (constants_G * total_mass_kg ms mp)) / (4 * Real.pi ^ 2) =
      (a * constants_AU) ^ 3 := by
    field_simp
  rw [e2]
  have e3 : ((a * constants_AU) ^ 3 : ℝ) ^ ((1 : ℝ)/3) = a * constants_AU := by
    rw [← Real.rpow_natCast (a * constants_AU) 3, ← Real.rpow_mul ham.le]
    norm_num
  rw [e3, mul_div_cancel_right₀ a hAU.ne']

/-- C10 witness: at one solar mass, one Earth mass and one AU the round
trip returns exactly one AU. -/
theorem kepler_round_trip_witness :
    kepler_period_to_distance 1 1 (kepler_distance_to_period 1 1 1) = 1 :=
  kepler_round_trip 1 1 1 (by norm_num) (by norm_num) (by norm_num)

end NasaMission

